import Mathlib

/-!
Shallow embedding of XyliLoader's `main.go`: the identifier generator, the
content-type classifier, the size formatter, and the four HTTP handlers
(viewer, raw download, upload, delete) over a model of the GridFS bucket.
Bytes are `Nat` values below 256; the bucket is the list of live objects in
insertion order together with the next fresh object id.
-/

namespace XyliLoader

/-- The URL-safe base64 alphabet (RFC 4648 §5), the alphabet of Go's
`base64.RawURLEncoding`. -/
def urlAlphabet : List Char :=
  "ABCDEFGHIJKLMNOPQRSTUVWXYZabcdefghijklmnopqrstuvwxyz0123456789-_".toList

/-- Character of the URL-safe base64 alphabet at a 6-bit index. -/
def b64Char (n : Nat) : Char := urlAlphabet.getD n 'A'

/-- Go `base64.RawURLEncoding.EncodeToString` on a 4-byte buffer: the 32 input bits
split into six 6-bit groups (the last padded with zero bits), no `=` padding. -/
def rawURLEncode4 (b0 b1 b2 b3 : Nat) : List Char :=
  [ b64Char (b0 / 4),
    b64Char (b0 % 4 * 16 + b1 / 16),
    b64Char (b1 % 16 * 4 + b2 / 64),
    b64Char (b2 % 64),
    b64Char (b3 / 4),
    b64Char (b3 % 4 * 16) ]

/-- The function `generateID` (main.go:86-90): encode a 4-byte random buffer with
`base64.RawURLEncoding` and keep the first 5 characters. The 4 bytes drawn from
the entropy source are passed explicitly. -/
def generateID (b0 b1 b2 b3 : Nat) : String :=
  String.mk ((rawURLEncode4 b0 b1 b2 b3).take 5)

/-- The body of `generateID` with the entropy source's outcome explicit:
`b := make([]byte, 4)` zero-initialises the buffer and the error returned by
`rand.Read(b)` is discarded (main.go:88), so when the source fails to supply
bytes (`none`) the still-zero buffer is encoded instead of the operation
failing. -/
def generateIDFromEntropy (e : Option (Nat × Nat × Nat × Nat)) : String :=
  match e with
  | some (b0, b1, b2, b3) => generateID b0 b1 b2 b3
  | none => generateID 0 0 0 0

/-- Go `strings.HasPrefix s pre`. -/
def hasPrefix (pre s : String) : Bool :=
  pre.toList.isPrefixOf s.toList

/-- The function `getFileType` (main.go:92-103). -/
def getFileType (contentType : String) : String :=
  if hasPrefix "image/" contentType then "image"
  else if hasPrefix "video/" contentType then "video"
  else if hasPrefix "audio/" contentType then "audio"
  else "file"

/-- The unit characters `"KMGTPE"` indexed by the loop exponent of `formatSize`. -/
def unitChars : List Char := "KMGTPE".toList

/-- The loop `for n := bytes / unit; n >= unit; n /= unit` of `formatSize`,
carried out structurally on a fuel argument. Each iteration replaces `n` by
`n / 1024` with `n ≥ 1024`, which strictly decreases `n`, so fuel `n` is enough
for every iteration the loop performs and the fuel-exhausted branch coincides
with the loop exit (`n = 0 < 1024`). Returns the final `(div, exp)`. -/
def sizeLoopF : Nat → Nat → Nat → Nat → Nat × Nat
  | 0, _, div, exp => (div, exp)
  | fuel + 1, n, div, exp =>
    if 1024 ≤ n then sizeLoopF fuel (n / 1024) (div * 1024) (exp + 1)
    else (div, exp)

/-- The `formatSize` loop started on `n` with `div = 1024`, `exp = 0`. -/
def sizeLoop (n div exp : Nat) : Nat × Nat := sizeLoopF n n div exp

/-- Go `fmt.Sprintf` with verb `%.1f` applied to `float64 n / float64 div`: the quotient rendered with
one decimal digit, ties rounding to even. This matches Go exactly whenever the
`float64` division is exact (as it is at every value evaluated below); in
general Go rounds the correctly-rounded binary quotient. -/
def fixed1 (n div : Nat) : String :=
  let q := n * 10 / div
  let r := n * 10 % div
  let t := if div < 2 * r then q + 1
           else if 2 * r < div then q
           else if q % 2 = 0 then q else q + 1
  toString (t / 10) ++ "." ++ toString (t % 10)

/-- The function `formatSize` (main.go:105-116) on an `int64` byte count. The result is
`none` exactly when the index `exp` into `"KMGTPE"` would be out of range,
which in Go is a panic; theorem `c9` below shows this never happens for int64
inputs. -/
def formatSize (bytes : Int) : Option String :=
  if bytes < 1024 then some (toString bytes ++ " B")
  else
    let p := sizeLoop (bytes.toNat / 1024) 1024 0
    match unitChars.get? p.2 with
    | none => none
    | some c => some (fixed1 bytes.toNat p.1 ++ " " ++ String.mk [c, 'B'])

/-- One GridFS object: its `_id`, stored filename, the upload metadata fields
`short_id`, `delete_token`, `content_type`, and the content bytes. The GridFS
`length` field is the byte count of `content`, finalized at write completion. -/
structure StoredFile where
  internalID : Nat
  filename : String
  shortID : String
  deleteToken : String
  contentType : String
  content : List Nat
deriving DecidableEq, Repr

/-- The GridFS bucket: live objects in insertion order plus the next fresh
`_id`. -/
structure Store where
  files : List StoredFile
  nextID : Nat
deriving DecidableEq, Repr

/-- Lookup `gfsBucket.Find` on `metadata.short_id` followed by `cursor.Next`: the
first live object whose `short_id` metadata equals `v`. -/
def findByShortID (v : String) (st : Store) : Option StoredFile :=
  st.files.find? (fun f => f.shortID == v)

/-- Lookup `gfsBucket.Find` on `metadata.delete_token` followed by `cursor.Next`. -/
def findByDeleteToken (v : String) (st : Store) : Option StoredFile :=
  st.files.find? (fun f => f.deleteToken == v)

/-- Deletion `gfsBucket.Delete(id)`: irreversibly remove the object with the given
`_id`. -/
def removeByInternalID (id : Nat) (st : Store) : Store :=
  ⟨st.files.filter (fun f => f.internalID != id), st.nextID⟩

/-- Outcome of the `/raw/` handler (main.go:219-265). -/
inductive RawResult
  | badRequest (msg : String)
  | notFound
  | ok (contentType filename : String) (content : List Nat)
deriving DecidableEq, Repr

/-- HTTP status carried by each `/raw/` outcome. -/
def rawStatus : RawResult → Nat
  | .badRequest _ => 400
  | .notFound => 404
  | .ok _ _ _ => 200

/-- Result of the `/raw/` handler, with the number of store lookups the
handler performed. -/
structure RawOut where
  res : RawResult
  lookups : Nat
deriving DecidableEq, Repr

/-- The `/raw/` handler (main.go:219-265): `fileID` is the path after `/raw/`;
an empty id is rejected before touching the store; otherwise the first object
with matching `short_id` is served with its stored `content_type`, its
filename in the attachment disposition, and its content bytes. -/
def rawHandler (fileID : String) (st : Store) : RawOut :=
  if fileID = "" then ⟨.badRequest "no file id", 0⟩
  else
    match findByShortID fileID st with
    | none => ⟨.notFound, 1⟩
    | some f => ⟨.ok f.contentType f.filename f.content, 1⟩

/-- Outcome of the viewer handler: the template class, filename and formatted
size handed to the presentation layer, or not-found. -/
inductive ViewResult
  | notFound
  | ok (fileType filename : String) (fileSize : Option String)
deriving DecidableEq, Repr

/-- The viewer handler (main.go:133-207) for a non-root path: look up the
`short_id`, classify the stored content type, format the stored length. -/
def viewHandler (fileID : String) (st : Store) : ViewResult :=
  if fileID = "" then .notFound
  else
    match findByShortID fileID st with
    | none => .notFound
    | some f => .ok (getFileType f.contentType) f.filename
        (formatSize (f.content.length : Int))

/-- Outcome of the `/upload` handler (main.go:267-324). -/
inductive UploadResult
  | badRequest (msg : String)
  | fileTooLarge
  | ok (shortID deleteToken : String)
deriving DecidableEq, Repr

/-- HTTP status carried by each `/upload` outcome. -/
def uploadStatus : UploadResult → Nat
  | .badRequest _ => 400
  | .fileTooLarge => 400
  | .ok _ _ => 200

/-- Result of the `/upload` handler: response, resulting store, and whether
`OpenUploadStream` was reached. -/
structure UploadOut where
  res : UploadResult
  st : Store
  streamOpened : Bool
deriving DecidableEq, Repr

/-- Content-type defaulting at upload (main.go:293-296). -/
def defaultContentType (ct : String) : String :=
  if ct = "" then "application/octet-stream" else ct

/-- The `/upload` handler (main.go:267-324) past multipart parsing:
`declaredSize` is `header.Size`, `sid`/`tok` the two generator outcomes
(`generateID()` and `generateID()+generateID()`). The size check
`header.Size > config.Upload.MaxSize` rejects before `OpenUploadStream`;
otherwise a new object is appended with metadata `short_id = sid`,
`delete_token = tok`, `content_type` defaulted, and the bytes copied in. -/
def uploadHandler (maxSize declaredSize : Nat) (filename contentType : String)
    (content : List Nat) (sid tok : String) (st : Store) : UploadOut :=
  if maxSize < declaredSize then ⟨.fileTooLarge, st, false⟩
  else
    let f : StoredFile :=
      ⟨st.nextID, filename, sid, tok, defaultContentType contentType, content⟩
    ⟨.ok sid tok, ⟨st.files ++ [f], st.nextID + 1⟩, true⟩

/-- Outcome of the `/delete/` handler (main.go:326-371). -/
inductive DeleteResult
  | badRequest (msg : String)
  | notFound
  | deleted
deriving DecidableEq, Repr

/-- HTTP status carried by each `/delete/` outcome. -/
def deleteStatus : DeleteResult → Nat
  | .badRequest _ => 400
  | .notFound => 404
  | .deleted => 200

/-- Result of the `/delete/` handler: response, resulting store, and the
number of store lookups performed. -/
structure DeleteOut where
  res : DeleteResult
  st : Store
  lookups : Nat
deriving DecidableEq, Repr

/-- The `/delete/` handler (main.go:326-371): `tok` is the path after
`/delete/`; an empty token is rejected before touching the store; otherwise
the first object with matching `delete_token` is removed by its `_id`. -/
def deleteHandler (tok : String) (st : Store) : DeleteOut :=
  if tok = "" then ⟨.badRequest "No delete token", st, 0⟩
  else
    match findByDeleteToken tok st with
    | none => ⟨.notFound, st, 1⟩
    | some f => ⟨.deleted, removeByInternalID f.internalID st, 1⟩

/-- One client-facing operation, with the identifiers the generator would
draw written explicitly. -/
inductive Op
  | upload (declaredSize : Nat) (filename contentType : String)
      (content : List Nat) (sid tok : String)
  | view (fileID : String)
  | raw (fileID : String)
  | del (tok : String)
deriving DecidableEq, Repr

/-- Effect of one operation on the store (view and raw are read-only). -/
def step (maxSize : Nat) (op : Op) (st : Store) : Store :=
  match op with
  | .upload d fn ct c sid tok => (uploadHandler maxSize d fn ct c sid tok st).st
  | .view _ => st
  | .raw _ => st
  | .del t => (deleteHandler t st).st

/-- Run a sequence of operations left to right. -/
def runOps (maxSize : Nat) (ops : List Op) (st : Store) : Store :=
  ops.foldl (fun s op => step maxSize op s) st

/-- Predicate: `op` introduces neither `s` as a short id nor `t` as a delete token. -/
def avoids (op : Op) (s t : String) : Bool :=
  match op with
  | .upload _ _ _ _ sid tok => sid != s && tok != t
  | _ => true

/-! ### General lemmas about the store model -/

theorem findByShortID_none {v : String} {st : Store} :
    findByShortID v st = none ↔ ∀ f ∈ st.files, f.shortID ≠ v := by
  simp [findByShortID, List.find?_eq_none]

theorem findByDeleteToken_none {v : String} {st : Store} :
    findByDeleteToken v st = none ↔ ∀ f ∈ st.files, f.deleteToken ≠ v := by
  simp [findByDeleteToken, List.find?_eq_none]

theorem findByShortID_append {v : String} {st : Store} {f : StoredFile}
    {n : Nat} (h : findByShortID v st = none) (hf : f.shortID = v) :
    findByShortID v ⟨st.files ++ [f], n⟩ = some f := by
  unfold findByShortID at h ⊢
  rw [List.find?_append, h]
  simp [List.find?, hf]

theorem findByShortID_step_none {m : Nat} {op : Op} {s t : String} {st : Store}
    (hs : findByShortID s st = none) (ha : avoids op s t = true) :
    findByShortID s (step m op st) = none := by
  cases op with
  | upload d fn ct c sid tok =>
    simp only [avoids, Bool.and_eq_true, bne_iff_ne, ne_eq] at ha
    simp only [step, uploadHandler]
    split
    · exact hs
    · rw [findByShortID_none] at hs ⊢
      intro g hg
      rcases List.mem_append.1 hg with hg | hg
      · exact hs g hg
      · rcases List.mem_singleton.1 hg with rfl
        exact ha.1
  | view _ => exact hs
  | raw _ => exact hs
  | del tk =>
    simp only [step, deleteHandler]
    split
    · exact hs
    · cases hfind : findByDeleteToken tk st with
      | none => simp [hfind, hs]
      | some g =>
        simp only [hfind]
        rw [findByShortID_none] at hs ⊢
        intro g' hg'
        exact hs g' (List.mem_filter.1 hg').1

theorem findByDeleteToken_step_none {m : Nat} {op : Op} {s t : String}
    {st : Store} (ht : findByDeleteToken t st = none)
    (ha : avoids op s t = true) :
    findByDeleteToken t (step m op st) = none := by
  cases op with
  | upload d fn ct c sid tok =>
    simp only [avoids, Bool.and_eq_true, bne_iff_ne, ne_eq] at ha
    simp only [step, uploadHandler]
    split
    · exact ht
    · rw [findByDeleteToken_none] at ht ⊢
      intro g hg
      rcases List.mem_append.1 hg with hg | hg
      · exact ht g hg
      · rcases List.mem_singleton.1 hg with rfl
        exact ha.2
  | view _ => exact ht
  | raw _ => exact ht
  | del tk =>
    simp only [step, deleteHandler]
    split
    · exact ht
    · cases hfind : findByDeleteToken tk st with
      | none => simp [hfind, ht]
      | some g =>
        simp only [hfind]
        rw [findByDeleteToken_none] at ht ⊢
        intro g' hg'
        exact ht g' (List.mem_filter.1 hg').1

theorem runOps_preserves_none {m : Nat} {s t : String} (ops : List Op)
    (st : Store) (hs : findByShortID s st = none)
    (ht : findByDeleteToken t st = none)
    (ha : ∀ op ∈ ops, avoids op s t = true) :
    findByShortID s (runOps m ops st) = none ∧
      findByDeleteToken t (runOps m ops st) = none := by
  induction ops generalizing st with
  | nil => exact ⟨hs, ht⟩
  | cons op ops ih =>
    simp only [runOps, List.foldl_cons]
    exact ih (step m op st)
      (findByShortID_step_none hs (ha op (List.mem_cons_self op ops)))
      (findByDeleteToken_step_none ht (ha op (List.mem_cons_self op ops)))
      (fun o ho => ha o (List.mem_cons_of_mem op ho))

theorem hasPrefix_unique {p q s : String} (hp : hasPrefix p s = true)
    (hq : hasPrefix q s = true) (hl : p.toList.length = q.toList.length) :
    p.toList = q.toList := by
  unfold hasPrefix at hp hq
  rw [ List.isPrefixOf_iff_prefix] at hp hq
  rcases List.prefix_or_prefix_of_prefix hp hq with h | h
  · exact h.eq_of_length hl
  · exact (h.eq_of_length hl.symm).symm

theorem b64Char_mem_urlAlphabet : ∀ n < 64, b64Char n ∈ urlAlphabet := by
  decide

/-! ### The claims -/

/-- C1: round-trip of upload and raw download. Uploading bytes `B` (declared
size equal to the byte count, within the limit) under a fresh short id `sid`
succeeds, and a subsequent `/raw/` download of `sid` serves exactly the bytes
`B` with the content type recorded at upload; the recorded length of the
stored object equals the length of `B`. -/
theorem c1_upload_raw_round_trip (m : Nat) (fn ct : String) (B : List Nat)
    (sid tok : String) (st : Store)
    (hsize : B.length ≤ m) (hsid : sid ≠ "")
    (hfresh : findByShortID sid st = none) :
    (uploadHandler m B.length fn ct B sid tok st).res = .ok sid tok ∧
    (rawHandler sid (uploadHandler m B.length fn ct B sid tok st).st).res =
      .ok (defaultContentType ct) fn B ∧
    (findByShortID sid (uploadHandler m B.length fn ct B sid tok st).st).map
      (fun f => f.content.length) = some B.length := by
  have hm : ¬ m < B.length := Nat.not_lt.2 hsize
  have hfind : findByShortID sid
      (uploadHandler m B.length fn ct B sid tok st).st =
      some ⟨st.nextID, fn, sid, tok, defaultContentType ct, B⟩ := by
    simp only [uploadHandler, if_neg hm]
    exact findByShortID_append hfresh rfl
  refine ⟨by simp [uploadHandler, if_neg hm], ?_, by simp [hfind]⟩
  simp [rawHandler, hsid, hfind]

/-- C1 witness: concrete round trip through an empty store. -/
theorem c1_witness :
    (uploadHandler 5 2 "x" "" [7, 8] "abcde" "tttttttttt" ⟨[], 0⟩).res =
      .ok "abcde" "tttttttttt" ∧
    (rawHandler "abcde"
        (uploadHandler 5 2 "x" "" [7, 8] "abcde" "tttttttttt" ⟨[], 0⟩).st).res =
      .ok (defaultContentType "") "x" [7, 8] ∧
    (findByShortID "abcde"
        (uploadHandler 5 2 "x" "" [7, 8] "abcde" "tttttttttt" ⟨[], 0⟩).st).map
      (fun f => f.content.length) = some 2 :=
  c1_upload_raw_round_trip 5 "x" "" [7, 8] "abcde" "tttttttttt" ⟨[], 0⟩
    (by decide) (by decide) (by decide)

/-- C2: single irreversible deletion. When a delete with token `t` finds the
stored file `f` (and `t` and `f`'s short id identify only `f` in the store),
the delete succeeds; a second delete with `t` returns not-found; raw download
and view of `f`'s short id return not-found; and after any further sequence of
operations whose generated identifiers avoid `f`'s short id and `t`, all three
still return not-found. -/
theorem c2_single_irreversible_deletion (m : Nat) (st : Store)
    (f : StoredFile) (t : String)
    (hfind : findByDeleteToken t st = some f)
    (ht : t ≠ "") (hsid : f.shortID ≠ "")
    (huT : ∀ g ∈ st.files, g.deleteToken = t → g.internalID = f.internalID)
    (huS : ∀ g ∈ st.files, g.shortID = f.shortID →
      g.internalID = f.internalID) :
    (deleteHandler t st).res = .deleted ∧
    (deleteHandler t (deleteHandler t st).st).res = .notFound ∧
    (rawHandler f.shortID (deleteHandler t st).st).res = .notFound ∧
    viewHandler f.shortID (deleteHandler t st).st = .notFound ∧
    (∀ ops : List Op, (∀ op ∈ ops, avoids op f.shortID t = true) →
      (rawHandler f.shortID (runOps m ops (deleteHandler t st).st)).res =
        .notFound ∧
      viewHandler f.shortID (runOps m ops (deleteHandler t st).st) =
        .notFound ∧
      (deleteHandler t (runOps m ops (deleteHandler t st).st)).res =
        .notFound) := by
  have hstep : deleteHandler t st =
      ⟨.deleted, removeByInternalID f.internalID st, 1⟩ := by
    simp [deleteHandler, ht, hfind]
  have hS : findByShortID f.shortID (removeByInternalID f.internalID st) =
      none := by
    rw [findByShortID_none]
    intro g hg hEq
    have hmem := List.mem_filter.1 hg
    have : (g.internalID != f.internalID) = true := hmem.2
    simp only [bne_iff_ne, ne_eq] at this
    exact this (huS g hmem.1 hEq)
  have hT : findByDeleteToken t (removeByInternalID f.internalID st) =
      none := by
    rw [findByDeleteToken_none]
    intro g hg hEq
    have hmem := List.mem_filter.1 hg
    have : (g.internalID != f.internalID) = true := hmem.2
    simp only [bne_iff_ne, ne_eq] at this
    exact this (huT g hmem.1 hEq)
  refine ⟨by rw [hstep], ?_, ?_, ?_, ?_⟩
  · rw [hstep]
    simp [deleteHandler, ht, hT]
  · rw [hstep]
    simp [rawHandler, hsid, hS]
  · rw [hstep]
    simp [viewHandler, hsid, hS]
  · intro ops ha
    rw [hstep]
    obtain ⟨h1, h2⟩ := runOps_preserves_none (m := m) ops
      (removeByInternalID f.internalID st) hS hT ha
    exact ⟨by simp [rawHandler, hsid, h1], by simp [viewHandler, hsid, h1],
      by simp [deleteHandler, ht, h2]⟩

/-- C2 witness: a one-file store, deleted by its token, stays unresolvable
across a later upload with fresh identifiers. -/
theorem c2_witness :
    (deleteHandler "0123456789"
      ⟨[⟨0, "a", "abcde", "0123456789", "text/plain", [1]⟩], 1⟩).res =
        .deleted ∧
    (deleteHandler "0123456789"
      (deleteHandler "0123456789"
        ⟨[⟨0, "a", "abcde", "0123456789", "text/plain", [1]⟩], 1⟩).st).res =
        .notFound ∧
    (rawHandler "abcde"
      (runOps 100 [Op.upload 1 "b" "" [2] "zzzzz" "yyyyyyyyyy"]
        (deleteHandler "0123456789"
          ⟨[⟨0, "a", "abcde", "0123456789", "text/plain", [1]⟩], 1⟩).st)).res =
        .notFound := by
  have h := c2_single_irreversible_deletion 100
    ⟨[⟨0, "a", "abcde", "0123456789", "text/plain", [1]⟩], 1⟩
    ⟨0, "a", "abcde", "0123456789", "text/plain", [1]⟩ "0123456789"
    (by decide) (by decide) (by decide) (by decide) (by decide)
  exact ⟨h.1, h.2.1,
    (h.2.2.2.2 [Op.upload 1 "b" "" [2] "zzzzz" "yyyyyyyyyy"] (by decide)).1⟩

/-- C3: size-limit enforcement ordering. An upload whose declared size
exceeds the maximum is rejected with status 400 before the upload stream is
opened and with the store unchanged; a declared size within the maximum is
not rejected by this check. -/
theorem c3_size_limit_enforcement (m d : Nat) (fn ct : String) (B : List Nat)
    (sid tok : String) (st : Store) :
    (m < d → uploadHandler m d fn ct B sid tok st =
      ⟨.fileTooLarge, st, false⟩ ∧ uploadStatus .fileTooLarge = 400) ∧
    (d ≤ m → (uploadHandler m d fn ct B sid tok st).res = .ok sid tok) := by
  constructor
  · intro h
    exact ⟨by simp [uploadHandler, h], rfl⟩
  · intro h
    simp [uploadHandler, Nat.not_lt.2 h]

/-- C3 witness: rejection at declared size 11 over maximum 10 leaves the
store untouched; declared size 10 is accepted. -/
theorem c3_witness :
    uploadHandler 10 11 "a" "" [1] "sssss" "tttttttttt" ⟨[], 0⟩ =
      ⟨.fileTooLarge, ⟨[], 0⟩, false⟩ ∧
    (uploadHandler 10 10 "a" "" [1] "sssss" "tttttttttt" ⟨[], 0⟩).res =
      .ok "sssss" "tttttttttt" :=
  ⟨((c3_size_limit_enforcement 10 11 "a" "" [1] "sssss" "tttttttttt"
      ⟨[], 0⟩).1 (by decide)).1,
    (c3_size_limit_enforcement 10 10 "a" "" [1] "sssss" "tttttttttt"
      ⟨[], 0⟩).2 (by decide)⟩

/-- C4: token separation. View and raw download look up only the `short_id`
metadata field, so any value that is no file's short id (in particular a
delete token) yields not-found; deletion looks up only the `delete_token`
field, so any value that is no file's delete token (in particular a short id)
yields not-found and leaves the store unchanged. -/
theorem c4_token_separation (st : Store) (v : String) (hv : v ≠ "") :
    ((∀ g ∈ st.files, g.shortID ≠ v) →
      (rawHandler v st).res = .notFound ∧ viewHandler v st = .notFound) ∧
    ((∀ g ∈ st.files, g.deleteToken ≠ v) →
      (deleteHandler v st).res = .notFound ∧ (deleteHandler v st).st = st) := by
  constructor
  · intro h
    have hS : findByShortID v st = none := findByShortID_none.2 h
    exact ⟨by simp [rawHandler, hv, hS], by simp [viewHandler, hv, hS]⟩
  · intro h
    have hT : findByDeleteToken v st = none := findByDeleteToken_none.2 h
    exact ⟨by simp [deleteHandler, hv, hT], by simp [deleteHandler, hv, hT]⟩

/-- C4 witness: in a store holding one file with short id `abcde` and delete
token `0123456789`, the delete token draws not-found from raw download and
the short id draws not-found from deletion. -/
theorem c4_witness :
    (rawHandler "0123456789"
      ⟨[⟨0, "f.txt", "abcde", "0123456789", "text/plain", [1, 2]⟩], 1⟩).res =
      .notFound ∧
    (deleteHandler "abcde"
      ⟨[⟨0, "f.txt", "abcde", "0123456789", "text/plain", [1, 2]⟩], 1⟩).res =
      .notFound :=
  ⟨((c4_token_separation
      ⟨[⟨0, "f.txt", "abcde", "0123456789", "text/plain", [1, 2]⟩], 1⟩
      "0123456789" (by decide)).1 (by decide)).1,
    ((c4_token_separation
      ⟨[⟨0, "f.txt", "abcde", "0123456789", "text/plain", [1, 2]⟩], 1⟩
      "abcde" (by decide)).2 (by decide)).1⟩

/-- C5: identifier shape. For any 4 random bytes, `generateID` yields exactly
5 characters of the URL-safe base64 alphabet, and a delete token — the
concatenation of two independent generator calls — is exactly 10 such
characters. -/
theorem c5_identifier_shape (b0 b1 b2 b3 c0 c1 c2 c3 : Nat)
    (hb : b0 < 256 ∧ b1 < 256 ∧ b2 < 256 ∧ b3 < 256)
    (hc : c0 < 256 ∧ c1 < 256 ∧ c2 < 256 ∧ c3 < 256) :
    (generateID b0 b1 b2 b3).length = 5 ∧
    (∀ ch ∈ (generateID b0 b1 b2 b3).toList, ch ∈ urlAlphabet) ∧
    (generateID b0 b1 b2 b3 ++ generateID c0 c1 c2 c3).length = 10 ∧
    (∀ ch ∈ (generateID b0 b1 b2 b3 ++ generateID c0 c1 c2 c3).toList,
      ch ∈ urlAlphabet) := by
  obtain ⟨h0, h1, h2, h3⟩ := hb
  obtain ⟨k0, k1, k2, k3⟩ := hc
  have hmem : ∀ x0 x1 x2 x3 : Nat, x0 < 256 → x1 < 256 → x2 < 256 →
      x3 < 256 → ∀ ch ∈ (generateID x0 x1 x2 x3).toList, ch ∈ urlAlphabet := by
    intro x0 x1 x2 x3 hx0 hx1 hx2 hx3 ch hch
    simp only [generateID, rawURLEncode4, List.take, String.toList,
      List.mem_cons, List.not_mem_nil, or_false] at hch
    rcases hch with rfl | rfl | rfl | rfl | rfl <;>
      exact b64Char_mem_urlAlphabet _ (by omega)
  have hlen : ∀ x0 x1 x2 x3 : Nat, (generateID x0 x1 x2 x3).length = 5 := by
    intro x0 x1 x2 x3
    simp [generateID, rawURLEncode4, String.length]
  refine ⟨hlen b0 b1 b2 b3, hmem b0 b1 b2 b3 h0 h1 h2 h3, ?_, ?_⟩
  · rw [String.length_append, hlen, hlen]
  · intro ch hch
    have hsplit : (generateID b0 b1 b2 b3 ++ generateID c0 c1 c2 c3).toList =
        (generateID b0 b1 b2 b3).toList ++ (generateID c0 c1 c2 c3).toList :=
      rfl
    rw [hsplit, List.mem_append] at hch
    rcases hch with hch | hch
    · exact hmem b0 b1 b2 b3 h0 h1 h2 h3 ch hch
    · exact hmem c0 c1 c2 c3 k0 k1 k2 k3 ch hch

/-- C5 witness: the shape holds at the extreme byte values. -/
theorem c5_witness :
    (generateID 0 127 200 255).length = 5 ∧
    (∀ ch ∈ (generateID 0 127 200 255).toList, ch ∈ urlAlphabet) ∧
    (generateID 0 127 200 255 ++ generateID 255 0 1 2).length = 10 ∧
    (∀ ch ∈ (generateID 0 127 200 255 ++ generateID 255 0 1 2).toList,
      ch ∈ urlAlphabet) :=
  c5_identifier_shape 0 127 200 255 255 0 1 2 (by decide) (by decide)

/-- C6: size formatting. `formatSize` renders byte counts with binary
(1024-based) units, one decimal place, and suffixes B/KB/MB/GB/TB/PB/EB: the
four values named in the spec, plus one representative of every remaining
unit suffix. -/
theorem c6_formatSize_values :
    formatSize 0 = some "0 B" ∧
    formatSize 1023 = some "1023 B" ∧
    formatSize 1536 = some "1.5 KB" ∧
    formatSize 1048576 = some "1.0 MB" ∧
    formatSize 1024 = some "1.0 KB" ∧
    formatSize (1024 ^ 3) = some "1.0 GB" ∧
    formatSize (1024 ^ 4) = some "1.0 TB" ∧
    formatSize (1024 ^ 5) = some "1.0 PB" ∧
    formatSize (1024 ^ 6) = some "1.0 EB" := by
  decide

/-- C7: content-type classification and defaulting. Classification matches on
the prefixes `image/`, `video/`, `audio/` and falls back to `file`; at ingest
a blank content type becomes `application/octet-stream`, which classifies as
`file`. -/
theorem c7_content_type_classification (ct : String) :
    (hasPrefix "image/" ct = true → getFileType ct = "image") ∧
    (hasPrefix "video/" ct = true → getFileType ct = "video") ∧
    (hasPrefix "audio/" ct = true → getFileType ct = "audio") ∧
    (hasPrefix "image/" ct = false → hasPrefix "video/" ct = false →
      hasPrefix "audio/" ct = false → getFileType ct = "file") ∧
    defaultContentType "" = "application/octet-stream" ∧
    getFileType (defaultContentType "") = "file" := by
  refine ⟨?_, ?_, ?_, ?_, by decide, by decide⟩
  · intro h
    simp [getFileType, h]
  · intro h
    have hni : ¬ hasPrefix "image/" ct = true := fun hi =>
      absurd (hasPrefix_unique hi h (by decide)) (by decide)
    simp [getFileType, h, hni]
  · intro h
    have hni : ¬ hasPrefix "image/" ct = true := fun hi =>
      absurd (hasPrefix_unique hi h (by decide)) (by decide)
    have hnv : ¬ hasPrefix "video/" ct = true := fun hv =>
      absurd (hasPrefix_unique hv h (by decide)) (by decide)
    simp [getFileType, h, hni, hnv]
  · intro hi hv ha
    simp [getFileType, hi, hv, ha]

/-- C7 witness: the classification at one representative of each class and at
the blank content type. -/
theorem c7_witness :
    getFileType "image/png" = "image" ∧
    getFileType "video/mp4" = "video" ∧
    getFileType "audio/mpeg" = "audio" ∧
    getFileType "application/pdf" = "file" ∧
    getFileType (defaultContentType "") = "file" :=
  ⟨(c7_content_type_classification "image/png").1 (by decide),
    (c7_content_type_classification "video/mp4").2.1 (by decide),
    (c7_content_type_classification "audio/mpeg").2.2.1 (by decide),
    (c7_content_type_classification "application/pdf").2.2.2.1 (by decide)
      (by decide) (by decide),
    (c7_content_type_classification "").2.2.2.2.2⟩

/-- C8: the claim fails on the code. The error returned by `rand.Read` is
discarded at main.go:88, so when the entropy source supplies no bytes the
zero-initialised buffer is encoded and `generateID` still returns the fixed
low-entropy identifier `AAAAA` instead of failing the calling operation. -/
theorem c8_entropy_failure_not_propagated :
    generateIDFromEntropy none = "AAAAA" ∧
    generateIDFromEntropy none = generateID 0 0 0 0 :=
  ⟨by decide, rfl⟩

theorem sizeLoopF_exp_le :
    ∀ (fuel k n div exp : Nat), n < 1024 ^ (k + 1) →
      (sizeLoopF fuel n div exp).2 ≤ exp + k := by
  intro fuel
  induction fuel with
  | zero =>
    intro k n div exp _
    simp [sizeLoopF]
  | succ fuel ih =>
    intro k n div exp hn
    simp only [sizeLoopF]
    split
    · rename_i hge
      cases k with
      | zero =>
        exfalso
        rw [zero_add, pow_one] at hn
        omega
      | succ k =>
        have hmul : n < 1024 ^ (k + 1) * 1024 := by
          rw [← pow_succ]
          exact hn
        have hlt : n / 1024 < 1024 ^ (k + 1) :=
          (Nat.div_lt_iff_lt_mul (by norm_num)).2 hmul
        have := ih k (n / 1024) (div * 1024) (exp + 1) hlt
        omega
    · omega

/-- C9: totality of `formatSize` on int64. Every int64 byte count (negative
values included, which take the `%d B` branch) is formatted without the
string index into `KMGTPE` going out of range, because the computed unit
exponent is at most 5. -/
theorem c9_formatSize_total (b : Int) (h1 : -(2 ^ 63) ≤ b) (h2 : b < 2 ^ 63) :
    (formatSize b).isSome = true ∧
    (b < 1024 → formatSize b = some (toString b ++ " B")) := by
  refine ⟨?_, fun h => by simp [formatSize, h]⟩
  by_cases hb : b < 1024
  · simp [formatSize, hb]
  · have hpow : (2 : Int) ^ 63 = 9223372036854775808 := by norm_num
    have h2' : b < 9223372036854775808 := hpow ▸ h2
    have hbn : b.toNat < 9223372036854775808 := by omega
    have hn : b.toNat / 1024 < 1024 ^ 6 := by
      have hp : (1024 : Nat) ^ 6 = 1152921504606846976 := by norm_num
      omega
    have hexp := sizeLoopF_exp_le (b.toNat / 1024) 5 (b.toNat / 1024) 1024 0 hn
    simp only [formatSize, if_neg hb]
    have hlt : (sizeLoop (b.toNat / 1024) 1024 0).2 < unitChars.length := by
      have hlen : unitChars.length = 6 := by decide
      simp only [sizeLoop]
      omega
    obtain ⟨c, hc⟩ : ∃ c, unitChars[(sizeLoop (b.toNat / 1024) 1024 0).2]? =
        some c := ⟨_, List.getElem?_eq_getElem hlt⟩
    simp [hc]

/-- C9 witness: a negative count takes the plain-byte branch and large counts
still format. -/
theorem c9_witness :
    (formatSize (-5)).isSome = true ∧ formatSize (-5) = some "-5 B" ∧
    (formatSize 4611686018427387904).isSome = true := by
  have ha := c9_formatSize_total (-5) (by norm_num) (by norm_num)
  have hb := c9_formatSize_total 4611686018427387904 (by norm_num) (by norm_num)
  exact ⟨ha.1, by simpa using ha.2 (by norm_num), hb.1⟩

/-- C10: empty-identifier guard. A raw download of `/raw/` with an empty id
is rejected with status 400 and message `no file id`, and a delete of
`/delete/` with an empty token is rejected with status 400 and message
`No delete token`; in both cases no store lookup is performed (the recorded
lookup count is 0) and the store is untouched. -/
theorem c10_empty_identifier_guard (st : Store) :
    rawHandler "" st = ⟨.badRequest "no file id", 0⟩ ∧
    rawStatus (rawHandler "" st).res = 400 ∧
    deleteHandler "" st = ⟨.badRequest "No delete token", st, 0⟩ ∧
    deleteStatus (deleteHandler "" st).res = 400 := by
  exact ⟨by simp [rawHandler], by simp [rawHandler, rawStatus],
    by simp [deleteHandler], by simp [deleteHandler, deleteStatus]⟩

end XyliLoader
